import Mathlib

/-!
Verification of the reticulum image-store node against its specification.

The Go source is shallowly embedded: pure helpers become Lean functions,
filesystem and memcache state is passed explicitly as association lists,
HTTP transport outcomes are inputs of type `Except`/`Option`, and 32-bit
machine arithmetic is `Nat` with explicit reduction modulo `2 ^ 32`.
-/

namespace Reticulum

/-- Bytes are natural numbers; byte strings are lists. -/
abbrev Bytes := List Nat

/-! ## SHA-1 (crypto/sha1 as used by `HashKeys` and the upload path)

A direct executable implementation of SHA-1 over a list of bytes,
all 32-bit words represented as `Nat` reduced modulo `2 ^ 32`. -/

/-- Reduce to a 32-bit word. -/
def w32 (n : Nat) : Nat := n % 4294967296

/-- Rotate a 32-bit word left by `s` bits (assumes the input is < 2^32). -/
def rotl (s n : Nat) : Nat := (n % 2 ^ (32 - s)) * 2 ^ s + n / 2 ^ (32 - s)

/-- Bitwise complement of a 32-bit word. -/
def wnot (n : Nat) : Nat := n ^^^ 4294967295

/-- Split a byte list into chunks of 64 bytes, structurally recursive on a
fuel argument so it reduces inside the kernel (the fuel is the list length,
which always suffices since each step consumes 64 > 0 bytes). -/
def chunks64Fuel : Nat → Bytes → List Bytes
  | 0, _ => []
  | _, [] => []
  | fuel + 1, l => l.take 64 :: chunks64Fuel fuel (l.drop 64)

/-- Split a byte list into chunks of 64 bytes (SHA-1 applies this to padded
input whose length is a positive multiple of 64). -/
def chunksOf64 (l : Bytes) : List Bytes := chunks64Fuel l.length l

/-- Big-endian 32-bit words from bytes, 4 bytes at a time. -/
def bytesToWords : Bytes → List Nat
  | b0 :: b1 :: b2 :: b3 :: rest =>
      (((b0 * 256 + b1) * 256 + b2) * 256 + b3) :: bytesToWords rest
  | _ => []

/-- A `Nat` as `k` big-endian bytes. -/
def natToBytesBE (k n : Nat) : Bytes :=
  match k with
  | 0 => []
  | k + 1 => natToBytesBE k (n / 256) ++ [n % 256]

/-- SHA-1 message padding: append 0x80, zero-pad to 56 mod 64, then the
64-bit big-endian bit length. -/
def sha1pad (msg : Bytes) : Bytes :=
  let ml := msg.length * 8
  let padZeros := (64 + 56 - (msg.length + 1) % 64) % 64
  msg ++ [128] ++ List.replicate padZeros 0 ++ natToBytesBE 8 ml

/-- Extend 16 words to the 80-word schedule. -/
def sha1extend (ws : List Nat) : List Nat :=
  (List.range 80).foldl
    (fun acc i =>
      acc ++ [if i < 16 then ws.getD i 0
              else rotl 1 (((acc.getD (i - 3) 0 ^^^ acc.getD (i - 8) 0) ^^^
                            acc.getD (i - 14) 0) ^^^ acc.getD (i - 16) 0)])
    []

/-- One round of the SHA-1 compression function. -/
def sha1round (st : Nat × Nat × Nat × Nat × Nat) (iw : Nat × Nat) :
    Nat × Nat × Nat × Nat × Nat :=
  let (a, b, c, d, e) := st
  let (i, w) := iw
  let f :=
    if i < 20 then (b &&& c) ||| (wnot b &&& d)
    else if i < 40 then (b ^^^ c) ^^^ d
    else if i < 60 then ((b &&& c) ||| (b &&& d)) ||| (c &&& d)
    else (b ^^^ c) ^^^ d
  let k :=
    if i < 20 then 1518500249
    else if i < 40 then 1859775393
    else if i < 60 then 2400959708
    else 3395469782
  let temp := w32 (rotl 5 a + f + e + k + w)
  (temp, a, rotl 30 b, c, d)

/-- Process one 64-byte chunk, updating the five-word state. -/
def sha1chunk (h : Nat × Nat × Nat × Nat × Nat) (chunk : Bytes) :
    Nat × Nat × Nat × Nat × Nat :=
  let ws := sha1extend (bytesToWords chunk)
  let (a, b, c, d, e) := ws.enum.foldl sha1round h
  let (h0, h1, h2, h3, h4) := h
  (w32 (h0 + a), w32 (h1 + b), w32 (h2 + c), w32 (h3 + d), w32 (h4 + e))

/-- SHA-1 digest of a byte list, as 20 bytes. -/
def sha1 (msg : Bytes) : Bytes :=
  let init : Nat × Nat × Nat × Nat × Nat :=
    (1732584193, 4023233417, 2562383102, 271733878, 3285377520)
  let (h0, h1, h2, h3, h4) := (chunksOf64 (sha1pad msg)).foldl sha1chunk init
  natToBytesBE 4 h0 ++ natToBytesBE 4 h1 ++ natToBytesBE 4 h2 ++
    natToBytesBE 4 h3 ++ natToBytesBE 4 h4

/-- Lowercase hex digit for a value below 16. -/
def hexDigit (n : Nat) : Char :=
  if n < 10 then Char.ofNat (48 + n) else Char.ofNat (87 + n)

/-- Lowercase hex encoding of a byte list (Go `fmt.Sprintf "%x"`). -/
def hexOfBytes (bs : Bytes) : String :=
  String.mk (bs.flatMap (fun b => [hexDigit (b / 16), hexDigit (b % 16)]))

/-- The bytes of an ASCII string (Go writes the string's UTF-8 bytes;
all identifiers involved here are ASCII). -/
def strBytes (s : String) : Bytes := s.toList.map Char.toNat

/-! ## String helpers from the Go standard library as the handlers use them -/

/-- Go `strings.Split(s, "/")` on a character list: splitting on every
slash, keeping empty fields. -/
def splitSlashAux : List Char → List (List Char)
  | [] => [[]]
  | c :: rest =>
    let r := splitSlashAux rest
    if c = '/' then [] :: r
    else
      match r with
      | h :: t => (c :: h) :: t
      | [] => [[c]]

/-- Go `strings.Split(s, "/")`. -/
def splitSlash (s : String) : List String := (splitSlashAux s.toList).map String.mk

/-- Go `filepath.Ext`: the suffix of the name starting at its final dot, or
the empty string when the name has no dot.  (The Go scan also stops at a path
separator; the callers here apply it to a single slash-free path segment.) -/
def filepathExt (s : String) : String :=
  let r := s.toList.reverse
  if r.any (· = '.') then String.mk ('.' :: (r.takeWhile (· ≠ '.')).reverse) else ""

/-- Go string slicing `s[1:]`: defined when `1 ≤ len(s)`, and a runtime
panic (modelled as `none`) on the empty string. -/
def sliceFrom1 (s : String) : Option String :=
  if s.length < 1 then none else some (String.mk (s.toList.drop 1))

/-! ## Hash-to-path derivation (`hashStringToPath` in views) -/

/-- Loop body of Go `hashStringToPath`: for each odd byte index `i` of the
hex string, the two-character slice `h[i-1:i+1]`. -/
def hashSegments (l : List Char) : List String :=
  ((List.range l.length).filter (fun i => i % 2 == 1)).map
    (fun i => String.mk ((l.drop (i - 1)).take 2))

/-- Go `hashStringToPath`: the collected two-character segments joined
with the path separator. -/
def hashStringToPath (h : String) : String :=
  String.intercalate "/" (hashSegments h.toList)

/-- Specification-side description: the consecutive two-character chunks of
a character list (a trailing odd character, impossible for a 40-char hash,
would be dropped). -/
def chunkPairs : List Char → List (List Char)
  | a :: b :: t => [a, b] :: chunkPairs t
  | _ => []

/-! ## Node (package `node`, `gofish_main.go` part 3) -/

/-- What we know about a single node (ourself or another); timestamps are
abstract instants represented as naturals. -/
structure NodeData where
  nickname : String
  uuid : String
  baseUrl : String
  location : String
  writeable : Bool
  lastSeen : Nat
  lastFailed : Nat
deriving DecidableEq

/-- Number of virtual ring keys per node. -/
def REPLICAS : Nat := 16

/-- Go `NodeData.HashKeys`: for each `i` in `0..REPLICAS-1`, the hex
digest of SHA-1 of the uuid followed by the decimal form of `i`. -/
def NodeData.HashKeys (n : NodeData) : List String :=
  (List.range REPLICAS).map
    (fun i => hexOfBytes (sha1 (strBytes (n.uuid ++ Nat.repr i))))

/-- An HTTP response as far as the node client inspects it: the status
line text and the body bytes. -/
structure HttpResp where
  status : String
  body : Bytes
deriving DecidableEq

/-- Go `NodeData.RetrieveImage`.  The outcome of `http.Get` is an explicit
input: `.error e` for a transport error, `.ok r` for a received response.
On transport error it records `lastFailed = now`; otherwise it records
`lastSeen = now` and then returns the body only when the status is
literally `"200 OK"`. -/
def NodeData.RetrieveImage (n : NodeData) (resp : Except String HttpResp)
    (now : Nat) : NodeData × Except String Bytes :=
  match resp with
  | .error e => ({ n with lastFailed := now }, .error e)
  | .ok r =>
    let n1 := { n with lastSeen := now }
    if r.status ≠ "200 OK" then (n1, .error "404, probably")
    else (n1, .ok r.body)

/-- Go `NodeData.Stash`.  The outcome of `postFile` (the `http.Post` of the
multipart body) is an explicit input; the response value itself is discarded
by the source (`_, err := postFile(...)`), so only transport success or
failure matters. -/
def NodeData.Stash (n : NodeData) (postResult : Except String HttpResp)
    (now : Nat) : NodeData × Bool :=
  match postResult with
  | .error _ => ({ n with lastFailed := now, writeable := false }, false)
  | .ok _ => ({ n with lastSeen := now }, true)

/-- True exactly on `Except.ok`. -/
def isOkE : Except String Bytes → Bool
  | .ok _ => true
  | .error _ => false

/-! ## Cluster-level retrieve (`retrieveImage` in views) -/

/-- One entry of the cluster read order, as the retrieve loop consumes it:
the peer's uuid and the outcome of `n.RetrieveImage` for the requested
image (`some` bytes when that call returns a nil error). -/
structure PeerView where
  uuid : String
  fetched : Option Bytes
deriving DecidableEq

/-- The data `retrieveImage` reads from the cluster: the local node's uuid
and the `ReadOrder` list for the requested hash. -/
structure ClusterView where
  myselfUUID : String
  readOrder : List PeerView
deriving DecidableEq

/-- The loop of Go `retrieveImage`: skip entries whose uuid equals the
local uuid, return the first successful peer retrieve. -/
def retrieveLoop (my : String) : List PeerView → Except String Bytes
  | [] => .error "not found in the cluster"
  | n :: rest =>
    if n.uuid = my then retrieveLoop my rest
    else
      match n.fetched with
      | some img => .ok img
      | none => retrieveLoop my rest

/-- Go `retrieveImage` (views): walk the read order for the hash. -/
def retrieveImage (c : ClusterView) : Except String Bytes :=
  retrieveLoop c.myselfUUID c.readOrder

/-! ## Extension tables (views) -/

/-- Go map `extmimes`, with Go map-indexing semantics: a missing key
yields the zero value `""`. -/
def extmimes (ext : String) : String :=
  if ext = "jpg" then "image/jpeg"
  else if ext = "gif" then "image/gif"
  else if ext = "png" then "image/png"
  else ""

/-- Go map `mimeexts`, with Go map-indexing semantics. -/
def mimeexts (mime : String) : String :=
  if mime = "image/jpeg" then "jpg"
  else if mime = "image/gif" then "gif"
  else if mime = "image/png" then "png"
  else ""

/-! ## Upload response (`AddHandler` in views) -/

/-- The JSON document `AddHandler` marshals (Go struct `ImageData`). -/
structure ImageData where
  hash : String
  length : Int
  extension : String
  fullUrl : String
  satisfied : Bool
  nodes : List String
deriving DecidableEq

/-- The `ImageData` value built by `AddHandler` after `cluster.Stash`
returned the uuid list `nodes`: in particular
`Satisfied: len(nodes) >= ctx.Cfg.MinReplication`. -/
def AddHandlerResponse (ahash ext : String) (nodes : List String)
    (minReplication : Int) : ImageData :=
  { hash := ahash
    length := 0
    extension := ext
    fullUrl := "/image/" ++ ahash ++ "/full/image." ++ ext
    satisfied := decide ((nodes.length : Int) ≥ minReplication)
    nodes := nodes }

/-! ## Serving images (`ServeImageHandler` in views)

Local state is explicit: `mc` is the memcache and `fs` the node's local
filesystem, both association lists from path/key to bytes (later bindings
shadow earlier ones).  The resize worker's reply and the image encoders
are explicit inputs, mirroring the channel round-trip and the codec
collaborator.  The result is `none` when the Go handler panics. -/

/-- Association-list lookup (`ioutil.ReadFile` / `memcache.Get`). -/
def lookupKV (m : List (String × Bytes)) (k : String) : Option Bytes :=
  (m.find? (fun kv => kv.1 == k)).map (fun kv => kv.2)

/-- Association-list update (`os.OpenFile` + write / `memcache.Set`). -/
def setKV (m : List (String × Bytes)) (k : String) (v : Bytes) :
    List (String × Bytes) :=
  (k, v) :: m

/-- The resize worker's reply on the handler's channel: `success` and
`magick` flags, the decoded output image (as abstract bytes) when the
handler must encode it itself, and the bytes imagemagick wrote to the
sized path when `magick` is true. -/
structure ResizeOut where
  success : Bool
  magick : Bool
  output : Bytes
  fileBytes : Bytes
deriving DecidableEq

/-- The trailing encoder selection of the serve and retrieve handlers:
`.jpg` is encoded with the jpeg encoder, `.gif` and `.png` with the png
encoder (the gif branch notes that `image/gif` has no `Encode`), and any
other extension falls off the end of the chain (`none`). -/
def encodeForExtension (extension : String) (encJpeg encPng : Bytes → Bytes)
    (img : Bytes) : Option Bytes :=
  if extension = ".jpg" then some (encJpeg img)
  else if extension = ".gif" then some (encPng img)
  else if extension = ".png" then some (encPng img)
  else none

/-- What the handler sends back on the HTTP response writer. -/
inductive ServeOutcome where
  | httpError : String → Nat → ServeOutcome
  | served : String → Bytes → ServeOutcome
deriving DecidableEq

/-- Go `ServeImageHandler` (views): URL parsing, memcache probe, sized and
full-size file probes, cluster retrieve on a local miss, and the resize
branch when only the full-size is present.  Returns the outcome together
with the final memcache and filesystem; `none` models a panic (the only
panic point is the slice `extension[1:]` on an empty extension). -/
def ServeImageHandler (uploadDir : String) (cl : ClusterView) (rz : ResizeOut)
    (encJpeg encPng : Bytes → Bytes) (mc fs : List (String × Bytes))
    (url : String) :
    Option (ServeOutcome × List (String × Bytes) × List (String × Bytes)) :=
  let parts := splitSlash url
  if parts.length < 5 ∨ parts.getD 1 "" ≠ "image" then
    some (.httpError "bad request" 404, mc, fs)
  else
    let ahash := parts.getD 2 ""
    let size := parts.getD 3 ""
    let filename0 := parts.getD 4 ""
    let filename := if filename0 = "" then "image.jpg" else filename0
    let extension := filepathExt filename
    if ahash.length ≠ 40 then some (.httpError "bad hash" 404, mc, fs)
    else
      let memcacheKey := ahash ++ "/" ++ size ++ "/image" ++ extension
      match lookupKV mc memcacheKey with
      | some v =>
        match sliceFrom1 extension with
        | none => none
        | some e1 => some (.served (extmimes e1) v, mc, fs)
      | none =>
        let baseDir := uploadDir ++ hashStringToPath ahash
        let path := baseDir ++ "/full" ++ extension
        let sizedPath := baseDir ++ "/" ++ size ++ extension
        match lookupKV fs sizedPath with
        | some contents =>
          match sliceFrom1 extension with
          | none => none
          | some e1 =>
            some (.served (extmimes e1) contents,
              setKV mc memcacheKey contents, fs)
        | none =>
          match lookupKV fs path with
          | none =>
            match sliceFrom1 extension with
            | none => none
            | some e1 =>
              match retrieveImage cl with
              | .error _ => some (.httpError "not found" 404, mc, fs)
              | .ok img =>
                some (.served (extmimes e1) img,
                  setKV mc memcacheKey img, fs)
          | some _ =>
            if rz.success = false then
              some (.httpError "could not resize image" 500, mc, fs)
            else if rz.magick then
              let fs1 := setKV fs sizedPath rz.fileBytes
              some (.served (extmimes extension) rz.fileBytes,
                setKV mc memcacheKey rz.fileBytes, fs1)
            else
              match sliceFrom1 extension with
              | none => none
              | some e1 =>
                match encodeForExtension extension encJpeg encPng rz.output with
                | some eb =>
                  some (.served (extmimes e1) eb,
                    setKV mc memcacheKey eb, setKV fs sizedPath eb)
                | none =>
                  some (.served (extmimes e1) [], mc, setKV fs sizedPath [])

/-! ## Theorems -/

/-- A concrete node used to instantiate the liveness theorems. -/
def witnessNode : NodeData :=
  { nickname := "chuck"
    uuid := "testuuid"
    baseUrl := "localhost:8080"
    location := "test"
    writeable := true
    lastSeen := 0
    lastFailed := 0 }

/-- C1 counterexample: on a single node with `min_replication = 1`, an upload
whose remote success list is empty reports `satisfied = false`, although the
claim predicts `satisfied = true` (0 successes + 1 local copy ≥ 1).  The
source computes `len(nodes) >= MinReplication` with no `+ 1`. -/
theorem addHandler_C1_counterexample :
    (AddHandlerResponse "h" "png" [] 1).satisfied = false ∧
    (([] : List String).length + 1 : Int) ≥ 1 := by
  exact ⟨rfl, by decide⟩

/-- C1 (amended): the JSON field `satisfied` is true if and only if the
number of successful remote stashes is at least `min_replication`; the
local copy is not counted, so on a single node with `min_replication = 1`
an upload with an empty success list reports `satisfied = false`. -/
theorem addHandler_C1_amended (ahash ext : String) (nodes : List String)
    (minRep : Int) :
    (AddHandlerResponse ahash ext nodes minRep).satisfied = true ↔
      (nodes.length : Int) ≥ minRep := by
  simp [AddHandlerResponse]

/-- C1 witness: one remote success with `min_replication = 1` is satisfied. -/
theorem addHandler_C1_witness :
    (AddHandlerResponse "deadbeef" "jpg" ["u1"] 1).satisfied = true :=
  (addHandler_C1_amended "deadbeef" "jpg" ["u1"] 1).mpr (by decide)

/-- C2: for every call to `Node.Stash`, an erroring stash sets
`last_failed = now` and clears the writeable flag, a successful stash sets
`last_seen = now`, and the returned boolean is true exactly when the stash
succeeded. -/
theorem stash_C2 (n : NodeData) (now : Nat) :
    (∀ e, n.Stash (.error e) now =
        ({ n with lastFailed := now, writeable := false }, false)) ∧
    (∀ r, n.Stash (.ok r) now = ({ n with lastSeen := now }, true)) ∧
    (∀ res, (n.Stash res now).2 = true ↔ ∃ r, res = .ok r) := by
  refine ⟨fun e => rfl, fun r => rfl, fun res => ?_⟩
  cases res <;> simp [NodeData.Stash]

/-- C2 witness: a failed stash at time 3 marks the node failed and
non-writeable and returns false. -/
theorem stash_C2_witness :
    witnessNode.Stash (.error "connection refused") 3 =
      ({ witnessNode with lastFailed := 3, writeable := false }, false) :=
  (stash_C2 witnessNode 3).1 "connection refused"

/-- C9: whenever the HTTP POST of a stash completes at the transport
level, `Stash` returns true and sets `last_seen = now` regardless of the
HTTP status in the peer's response. -/
theorem stash_C9 (n : NodeData) (now : Nat) (status : String) (body : Bytes) :
    n.Stash (.ok ⟨status, body⟩) now = ({ n with lastSeen := now }, true) := rfl

/-- C9 witness: a 400 response from a non-writeable peer still counts as a
successful stash. -/
theorem stash_C9_witness :
    witnessNode.Stash (.ok ⟨"400 Bad Request", strBytes "non-writeable node"⟩) 9 =
      ({ witnessNode with lastSeen := 9 }, true) :=
  stash_C9 witnessNode 9 "400 Bad Request" (strBytes "non-writeable node")

/-- C5 counterexample: the source compares the status text with the literal
`"200 OK"`, so a 204 response — an HTTP 2xx — yields the not-found error
instead of the body, contradicting the claim that every 2xx returns the
body. -/
theorem retrieveImage_C5_counterexample :
    witnessNode.RetrieveImage (.ok ⟨"204 No Content", [7]⟩) 5 =
      ({ witnessNode with lastSeen := 5 }, .error "404, probably") ∧
    (witnessNode.RetrieveImage (.ok ⟨"204 No Content", [7]⟩) 5).2 ≠ .ok [7] := by
  refine ⟨rfl, ?_⟩
  simp [NodeData.RetrieveImage]

/-- C5 (amended): on a transport error `RetrieveImage` sets
`last_failed = now` and returns the error; on any received response it sets
`last_seen = now`, and it returns the body exactly when the status is
literally `"200 OK"` — any other status, 2xx or not, yields a NotFound
error. -/
theorem retrieveImage_C5_amended (n : NodeData) (now : Nat) :
    (∀ e, n.RetrieveImage (.error e) now =
        ({ n with lastFailed := now }, .error e)) ∧
    (∀ r, r.status = "200 OK" →
        n.RetrieveImage (.ok r) now = ({ n with lastSeen := now }, .ok r.body)) ∧
    (∀ r, r.status ≠ "200 OK" →
        n.RetrieveImage (.ok r) now =
          ({ n with lastSeen := now }, .error "404, probably")) := by
  refine ⟨fun e => rfl, fun r hr => ?_, fun r hr => ?_⟩ <;>
    simp [NodeData.RetrieveImage, hr]

/-- C5 witness: a 200 response at time 7 refreshes `last_seen` and returns
the body. -/
theorem retrieveImage_C5_witness :
    witnessNode.RetrieveImage (.ok ⟨"200 OK", [1, 2]⟩) 7 =
      ({ witnessNode with lastSeen := 7 }, .ok [1, 2]) :=
  (retrieveImage_C5_amended witnessNode 7).2.1 ⟨"200 OK", [1, 2]⟩ rfl

/-- C6 counterexample: the extension table maps `gif` to `image/gif`, not
to `image/png` as the claim states. -/
theorem extmimes_C6_counterexample :
    extmimes "gif" = "image/gif" ∧ extmimes "gif" ≠ "image/png" := by
  exact ⟨rfl, by decide⟩

/-- C6 (amended): the Content-Type of a served image is determined by the
extension as `jpg → image/jpeg`, `png → image/png`, `gif → image/gif`
(not `image/png` as claimed), while GIF renditions are nevertheless
encoded with the PNG encoder. -/
theorem extmimes_C6_amended :
    extmimes "jpg" = "image/jpeg" ∧ extmimes "png" = "image/png" ∧
    extmimes "gif" = "image/gif" ∧
    ∀ (encJpeg encPng : Bytes → Bytes) (img : Bytes),
      encodeForExtension ".gif" encJpeg encPng img = some (encPng img) :=
  ⟨rfl, rfl, rfl, fun _ _ _ => rfl⟩

/-- C3: `HashKeys` returns exactly `REPLICAS = 16` virtual ring keys, the
`i`-th being the lowercase hex encoding of SHA-1 of the node's uuid
concatenated with the decimal representation of `i`. -/
theorem hashKeys_C3 (n : NodeData) :
    n.HashKeys.length = 16 ∧
    ∀ i, i < 16 →
      n.HashKeys.getD i "" =
        hexOfBytes (sha1 (strBytes (n.uuid ++ Nat.repr i))) := by
  constructor
  · simp [NodeData.HashKeys, REPLICAS]
  · intro i hi
    simp [NodeData.HashKeys, REPLICAS, List.getD_eq_getElem?_getD,
      List.getElem?_map, List.getElem?_range hi]

set_option maxRecDepth 4096 in
/-- C3 witness: the first ring key of a concrete node equals the SHA-1 hex
digest of the string `testuuid0`, matching an externally computed digest. -/
theorem hashKeys_C3_witness :
    witnessNode.HashKeys.getD 0 "" =
      "753e9ada6fb9ee043fb329f4aa80642db371ec2c" := by
  have h := (hashKeys_C3 witnessNode).2 0 (by decide)
  rw [h]
  decide

/-- The index-loop form of `hashStringToPath` emits one segment per
leading pair: its value on `a :: b :: t` is the segment `[a, b]` followed
by its value on `t`. -/
theorem hashSegments_pair (a b : Char) (t : List Char) :
    hashSegments (a :: b :: t) = String.mk [a, b] :: hashSegments t := by
  unfold hashSegments
  have hrange : List.range (t.length + 2) =
      0 :: 1 :: (List.range t.length).map (fun i => i + 2) := by
    rw [List.range_succ_eq_map, List.range_succ_eq_map, List.map_cons,
      List.map_map]
    rfl
  have hlen : (a :: b :: t).length = t.length + 2 := by simp
  rw [hlen, hrange]
  rw [List.filter_cons, List.filter_cons]
  norm_num
  rw [List.filter_map, List.map_map]
  have hfilter :
      List.filter ((fun i => i % 2 == 1) ∘ fun i => i + 2)
          (List.range t.length) =
        List.filter (fun i => i % 2 == 1) (List.range t.length) := by
    apply List.filter_congr
    intro i _
    simp [Function.comp, Nat.add_mod_right]
  rw [hfilter]
  apply List.map_congr_left
  intro i hi
  have hodd : (i % 2 == 1) = true := (List.mem_filter.mp hi).2
  have h1 : 1 ≤ i := by
    rcases Nat.eq_zero_or_pos i with h0 | h0
    · subst h0; simp at hodd
    · exact h0
  obtain ⟨j, rfl⟩ : ∃ j, i = j + 1 := ⟨i - 1, by omega⟩
  simp only [Function.comp_apply]
  congr 1

theorem hashSegments_eq_chunkPairs :
    (l : List Char) → hashSegments l = (chunkPairs l).map String.mk
  | [] => rfl
  | [_] => rfl
  | a :: b :: t => by
    rw [hashSegments_pair]
    show String.mk [a, b] :: hashSegments t =
      ([a, b] :: chunkPairs t).map String.mk
    rw [List.map_cons]
    exact congrArg _ (hashSegments_eq_chunkPairs t)

theorem chunkPairs_length :
    (l : List Char) → (chunkPairs l).length = l.length / 2
  | [] => rfl
  | [_] => by simp [chunkPairs]
  | _ :: _ :: t => by
    show (chunkPairs t).length + 1 = _
    rw [chunkPairs_length t]
    simp
    omega

/-- C7: for every 40-character hash string the derived filesystem path is
the 20 consecutive two-character segments of the hex joined by the path
separator. -/
theorem hashStringToPath_C7 (h : String) (hlen : h.length = 40) :
    hashStringToPath h =
      String.intercalate "/" ((chunkPairs h.toList).map String.mk) ∧
    (chunkPairs h.toList).length = 20 := by
  constructor
  · unfold hashStringToPath
    rw [hashSegments_eq_chunkPairs]
  · rw [chunkPairs_length]
    have hl : h.toList.length = 40 := hlen
    omega

/-- C7 witness: a concrete 40-character hash splits into its 20 pairs. -/
theorem hashStringToPath_C7_witness :
    hashStringToPath "0123456789abcdef0123456789abcdef01234567" =
      String.intercalate "/"
        ((chunkPairs "0123456789abcdef0123456789abcdef01234567".toList).map
          String.mk) ∧
    (chunkPairs "0123456789abcdef0123456789abcdef01234567".toList).length =
      20 :=
  hashStringToPath_C7 "0123456789abcdef0123456789abcdef01234567" (by decide)

/-- The retrieve loop returns the first successful fetch among the entries
whose uuid differs from the local uuid, and the fixed not-found error when
there is none. -/
theorem retrieveLoop_spec (my : String) (l : List PeerView) :
    retrieveLoop my l =
      match (l.filter (fun n => n.uuid != my)).findSome? (fun n => n.fetched) with
      | some b => .ok b
      | none => .error "not found in the cluster" := by
  induction l with
  | nil => rfl
  | cons n rest ih =>
    by_cases h : n.uuid = my
    · simp [retrieveLoop, h, ih, List.filter_cons]
    · cases hf : n.fetched with
      | some img => simp [retrieveLoop, h, hf, List.filter_cons]
      | none => simp [retrieveLoop, h, hf, ih, List.filter_cons]

/-- The retrieve loop reports the not-found error exactly when every entry
with a non-local uuid failed to fetch. -/
theorem retrieveLoop_error_iff (my : String) (l : List PeerView) :
    retrieveLoop my l = .error "not found in the cluster" ↔
      ∀ n ∈ l, n.uuid ≠ my → n.fetched = none := by
  induction l with
  | nil => simp [retrieveLoop]
  | cons n rest ih =>
    by_cases h : n.uuid = my
    · simp [retrieveLoop, h, ih]
    · cases hf : n.fetched with
      | some img => simp [retrieveLoop, h, hf]
      | none => simp [retrieveLoop, h, hf, ih]

/-- C4: cluster retrieve walks the read order, skips every entry whose uuid
equals the local node's uuid, returns the first successful peer retrieve,
and returns the not-found error exactly when every consulted peer fails. -/
theorem retrieveImage_C4 (c : ClusterView) :
    (retrieveImage c =
      match (c.readOrder.filter (fun n => n.uuid != c.myselfUUID)).findSome?
          (fun n => n.fetched) with
      | some b => .ok b
      | none => .error "not found in the cluster") ∧
    (retrieveImage c = .error "not found in the cluster" ↔
      ∀ n ∈ c.readOrder, n.uuid ≠ c.myselfUUID → n.fetched = none) :=
  ⟨retrieveLoop_spec c.myselfUUID c.readOrder,
   retrieveLoop_error_iff c.myselfUUID c.readOrder⟩

/-- C4 witness: with read order `myself, a failing peer, a succeeding
peer`, retrieve skips myself and returns the succeeding peer's bytes. -/
theorem retrieveImage_C4_witness :
    retrieveImage
        ⟨"me", [⟨"me", some [9]⟩, ⟨"p1", none⟩, ⟨"p2", some [4]⟩]⟩ =
      Except.ok [4] := by
  have h :=
    (retrieveImage_C4
      ⟨"me", [⟨"me", some [9]⟩, ⟨"p1", none⟩, ⟨"p2", some [4]⟩]⟩).1
  rw [h]
  rfl

/-- C8: on the read path, when neither the rendition nor the full-size
blob is on the local filesystem and the image is fetched from a peer via
cluster retrieve, the handler serves the bytes and leaves the filesystem
untouched: the full-size and rendition paths for the hash remain absent
afterwards (only the memcache gains an entry). -/
theorem serveImage_C8 (uploadDir : String) (cl : ClusterView) (rz : ResizeOut)
    (encJ encP : Bytes → Bytes) (mc fs : List (String × Bytes))
    (url ahash size filename e1 : String) (img : Bytes)
    (hsplit : splitSlash url = ["", "image", ahash, size, filename])
    (hfn : filename ≠ "")
    (hext : sliceFrom1 (filepathExt filename) = some e1)
    (hlen : ahash.length = 40)
    (hmc : lookupKV mc
      (ahash ++ "/" ++ size ++ "/image" ++ filepathExt filename) = none)
    (hsized : lookupKV fs
      (uploadDir ++ hashStringToPath ahash ++ "/" ++ size ++
        filepathExt filename) = none)
    (hfull : lookupKV fs
      (uploadDir ++ hashStringToPath ahash ++ "/full" ++
        filepathExt filename) = none)
    (hretr : retrieveImage cl = .ok img) :
    ServeImageHandler uploadDir cl rz encJ encP mc fs url =
      some (.served (extmimes e1) img,
        setKV mc (ahash ++ "/" ++ size ++ "/image" ++ filepathExt filename)
          img,
        fs) ∧
    lookupKV fs
      (uploadDir ++ hashStringToPath ahash ++ "/full" ++
        filepathExt filename) = none ∧
    lookupKV fs
      (uploadDir ++ hashStringToPath ahash ++ "/" ++ size ++
        filepathExt filename) = none := by
  refine ⟨?_, hfull, hsized⟩
  unfold ServeImageHandler
  rw [hsplit]
  simp only [List.length_cons, List.getD, List.getElem?_cons_succ,
    List.getElem?_cons_zero, Option.getD_some]
  norm_num
  rw [if_neg hfn, if_pos hlen]
  rw [hmc, hsized, hfull, hext, hretr]

/-- C8 witness: a concrete request for a hash absent from an empty local
filesystem is served from the peer `p1` and the filesystem stays empty. -/
theorem serveImage_C8_witness :
    ServeImageHandler "uploads/" ⟨"me", [⟨"p1", some [1, 2, 3]⟩]⟩
        ⟨true, false, [], []⟩ id id [] []
        "/image/aaaaaaaaaaaaaaaaaaaaaaaaaaaaaaaaaaaaaaaa/200s/image.png" =
      some (.served (extmimes "png") [1, 2, 3],
        setKV [] ("aaaaaaaaaaaaaaaaaaaaaaaaaaaaaaaaaaaaaaaa" ++ "/" ++
          "200s" ++ "/image" ++ filepathExt "image.png") [1, 2, 3],
        []) ∧
    lookupKV []
      ("uploads/" ++
        hashStringToPath "aaaaaaaaaaaaaaaaaaaaaaaaaaaaaaaaaaaaaaaa" ++
        "/full" ++ filepathExt "image.png") = none ∧
    lookupKV []
      ("uploads/" ++
        hashStringToPath "aaaaaaaaaaaaaaaaaaaaaaaaaaaaaaaaaaaaaaaa" ++
        "/" ++ "200s" ++ filepathExt "image.png") = none :=
  serveImage_C8 "uploads/" ⟨"me", [⟨"p1", some [1, 2, 3]⟩]⟩
    ⟨true, false, [], []⟩ id id [] []
    "/image/aaaaaaaaaaaaaaaaaaaaaaaaaaaaaaaaaaaaaaaa/200s/image.png"
    "aaaaaaaaaaaaaaaaaaaaaaaaaaaaaaaaaaaaaaaa" "200s" "image.png" "png"
    [1, 2, 3] (by decide) (by decide) rfl rfl rfl rfl rfl rfl

/-- C10: a GET for `/image/<40-hex>/<size>/<filename>` whose filename is
non-empty but contains no dot makes `filepath.Ext` return the empty
string, and the handler then evaluates the slice `extension[1:]` of the
empty string — an out-of-bounds slice, i.e. a panic (`none`): the handler
is not total over its input domain. -/
theorem serveImage_C10 :
    ServeImageHandler "uploads/" ⟨"me", []⟩ ⟨true, false, [], []⟩ id id [] []
        "/image/aaaaaaaaaaaaaaaaaaaaaaaaaaaaaaaaaaaaaaaa/full/noext" =
      none ∧
    ("noext" : String) ≠ "" ∧
    "noext".toList.all (fun c => c ≠ '.') = true ∧
    filepathExt "noext" = "" ∧
    sliceFrom1 "" = none := by
  refine ⟨?_, by decide, by decide, rfl, rfl⟩
  rfl

end Reticulum

